import Mathlib

/-
Verification of the arxivreader chat client against its specification.

The definitions below are a shallow embedding of the client-side code in
`src/public/js/chatbot-api-client.js` (class `ChatbotAPIClient`, class
`ValidationUtils`), `src/public/js/chatbot-ui.js` (class `ChatbotUI`) and
`src/public/js/error-handler.js` (class `ErrorHandler`).  Strings are Lean
`String`s (JS `.length` counts UTF-16 code units while `String.length`
counts code points; no claim depends on the difference for the inputs in
scope), DOM element handles are modelled by unique numeric ids, and the
asynchronous callback protocol of `streamMessage` is modelled as the list
of callback invocations it performs, in order.
-/

/- ===================== DEFINITIONS ===================== -/

/- ---- ValidationUtils.escapeHtml / ChatbotUI.escapeHtml ----
The two implementations are textually identical:
    const map = { '&': '&amp;', '<': '&lt;', '>': '&gt;',
                  '"': '&quot;', "'": '&#039;' };
    return text.replace(/[&<>"']/g, m => map[m]);
The regex replaces each of the five characters independently, so the whole
function is a per-character substitution. -/

def escapeCharL (c : Char) : List Char :=
  if c = '&' then ['&', 'a', 'm', 'p', ';']
  else if c = '<' then ['&', 'l', 't', ';']
  else if c = '>' then ['&', 'g', 't', ';']
  else if c = '"' then ['&', 'q', 'u', 'o', 't', ';']
  else if c = '\'' then ['&', '#', '0', '3', '9', ';']
  else [c]

def escapeHtml (s : String) : String :=
  String.mk (s.toList.map escapeCharL).flatten

/-- A character list contains none of the four HTML-structure characters
that `escapeHtml` eliminates (an unescaped `&` is tracked separately by
`ampOk`). -/
def noUnsafeChars (l : List Char) : Bool :=
  l.all fun c => !(c == '<') && !(c == '>') && !(c == '"') && !(c == '\'')

/-- Every occurrence of `&` in the list starts one of the five entities
`&amp;` `&lt;` `&gt;` `&quot;` `&#039;`. -/
def ampOk : List Char → Bool
  | [] => true
  | c :: rest =>
    if c = '&' then
      if ['a', 'm', 'p', ';'].isPrefixOf rest then ampOk (rest.drop 4)
      else if ['l', 't', ';'].isPrefixOf rest then ampOk (rest.drop 3)
      else if ['g', 't', ';'].isPrefixOf rest then ampOk (rest.drop 3)
      else if ['q', 'u', 'o', 't', ';'].isPrefixOf rest then ampOk (rest.drop 5)
      else if ['#', '0', '3', '9', ';'].isPrefixOf rest then ampOk (rest.drop 5)
      else false
    else ampOk rest
termination_by l => l.length
decreasing_by
  all_goals simp
  all_goals omega

/- ---- JS String.prototype.trim ----
JS `trim` removes the ECMAScript WhiteSpace and LineTerminator characters
from both ends of the string. -/

def jsWhitespace (c : Char) : Bool :=
  c.toNat = 0x09 || c.toNat = 0x0a || c.toNat = 0x0b || c.toNat = 0x0c ||
  c.toNat = 0x0d || c.toNat = 0x20 || c.toNat = 0xa0 || c.toNat = 0x1680 ||
  (0x2000 ≤ c.toNat && c.toNat ≤ 0x200a) || c.toNat = 0x2028 ||
  c.toNat = 0x2029 || c.toNat = 0x202f || c.toNat = 0x205f ||
  c.toNat = 0x3000 || c.toNat = 0xfeff

def jsTrim (s : String) : String :=
  String.mk (((s.toList.dropWhile jsWhitespace).reverse.dropWhile jsWhitespace).reverse)

/- ---- ValidationUtils.validateChatMessage ----
    static validateChatMessage(message) {
        if (!message || typeof message !== 'string') {
            return { valid: false, error: 'Message cannot be empty', sanitized: '' };
        }
        const trimmed = message.trim();
        if (trimmed.length === 0) {
            return { valid: false, error: 'Message cannot be empty', sanitized: '' };
        }
        if (trimmed.length > 10000) {
            return { valid: false, error: 'Message too long (max 10,000 characters)', sanitized: '' };
        }
        const sanitized = this.escapeHtml(trimmed);
        return { valid: true, error: null, sanitized: sanitized };
    }
The input is modelled as a `String` (so the `typeof` guard is vacuous and
`!message` is the test for the empty string, the only falsy string). -/

structure ValidationResult where
  valid : Bool
  error : Option String
  sanitized : String
deriving DecidableEq

def validateChatMessage (message : String) : ValidationResult :=
  if message = "" then
    { valid := false, error := some "Message cannot be empty", sanitized := "" }
  else if (jsTrim message).length = 0 then
    { valid := false, error := some "Message cannot be empty", sanitized := "" }
  else if (jsTrim message).length > 10000 then
    { valid := false, error := some "Message too long (max 10,000 characters)", sanitized := "" }
  else
    { valid := true, error := none, sanitized := escapeHtml (jsTrim message) }

/- ---- ErrorHandler.getUserFriendlyMessage / ErrorHandler.parseError ---- -/

/-- Whether `pat` occurs as a contiguous sublist of the second list. -/
def isInfixL (pat : List Char) : List Char → Bool
  | [] => pat.isEmpty
  | c :: rest => pat.isPrefixOf (c :: rest) || isInfixL pat rest

/-- JS `haystack.includes(needle)`. -/
def includes (s pat : String) : Bool :=
  isInfixL pat.toList s.toList

def getUserFriendlyMessage (message context : String) : String :=
  if includes message "fetch" || includes message "network" || includes message "NetworkError" then
    "Unable to connect to the server. Please check your internet connection and try again."
  else if includes message "timeout" || includes message "timed out" then
    "The request took too long to complete. Please try again."
  else if includes message "401" || includes message "Unauthorized" then
    "Authentication failed. Please check your API key in settings."
  else if includes message "403" || includes message "Forbidden" then
    "Access denied. Please check your permissions."
  else if includes message "404" || includes message "Not Found" then
    "The requested resource was not found."
  else if includes message "429" || includes message "Too Many Requests" then
    "Too many requests. Please wait a moment and try again."
  else if includes message "500" || includes message "Internal Server Error" then
    "Server error occurred. Please try again later."
  else if includes message "Invalid" || includes message "invalid" then
    "Invalid input: " ++ message
  else if includes message "JSON" || includes message "parse" then
    "Failed to process server response. Please try again."
  else if includes message "localStorage" || includes message "storage" then
    "Browser storage error. Your browser may be in private mode or storage may be full."
  else if includes context "Chat" then
    "Chat error: " ++ message ++ ". Please try reloading the page."
  else if includes context "Search" then
    "Search error: " ++ message ++ ". Please try again with different keywords."
  else if includes context "Paper" then
    "Failed to load paper: " ++ message
  else
    "An unexpected error occurred. Please try again later."

/-- The argument of `ErrorHandler.parseError`: an `Error` object (with a
message, an optional stack trace carrying internal state, and a name), a
plain string, or anything else. -/
inductive ErrArg where
  | err (message : String) (stack : Option String) (name : String)
  | str (s : String)
  | other
deriving DecidableEq

structure ErrorInfo where
  message : String
  stack : Option String
  type : String
  context : String
  timestamp : String
  userMessage : String
deriving DecidableEq

def parseError (error : ErrArg) (context : String) (now : String) : ErrorInfo :=
  match error with
  | .err m st nm =>
    { message := m, stack := st, type := nm, context := context,
      timestamp := now, userMessage := getUserFriendlyMessage m context }
  | .str s =>
    { message := s, stack := none, type := "Error", context := context,
      timestamp := now, userMessage := getUserFriendlyMessage s context }
  | .other =>
    { message := "Unknown error occurred", stack := none, type := "Unknown",
      context := context, timestamp := now,
      userMessage := getUserFriendlyMessage "Unknown error occurred" context }

/- ---- ChatbotAPIClient.streamMessage ----
The SSE loop parses each `data: ` line into an object and dispatches:
    if (data.error) { onError?.(new Error(data.error)); return; }
    if (data.chunk) { onChunk?.(data.chunk); }
    if (data.done)  { onComplete?.(data.message_id); return; }
A parsed event is modelled with JS truthiness for its string fields: the
empty string is the falsy case. -/

structure SSEData where
  error : String
  chunk : String
  done : Bool
  message_id : String
deriving DecidableEq

/-- One callback invocation performed by `streamMessage`. -/
inductive CbEvent where
  | chunk (text : String)
  | complete (mid : String)
  | error (msg : String)
deriving DecidableEq

/-- The sequence of callback invocations `streamMessage` performs on a
stream whose parsed `data:` events are the given list. -/
def processEvents : List SSEData → List CbEvent
  | [] => []
  | d :: rest =>
    if d.error ≠ "" then [CbEvent.error d.error]
    else
      (if d.chunk ≠ "" then [CbEvent.chunk d.chunk] else []) ++
      (if d.done then [CbEvent.complete d.message_id] else processEvents rest)

/-- The terminal callback mandated by the first terminal event of the
stream: `onError` for an error event, `onComplete` for a done event. -/
def terminalOf : List SSEData → Option CbEvent
  | [] => none
  | d :: rest =>
    if d.error ≠ "" then some (CbEvent.error d.error)
    else if d.done then some (CbEvent.complete d.message_id)
    else terminalOf rest

/-- The chunk payloads the stream delivers strictly before (or together
with) its first terminal event, in stream order. -/
def emittedChunks : List SSEData → List String
  | [] => []
  | d :: rest =>
    if d.error ≠ "" then []
    else
      (if d.chunk ≠ "" then [d.chunk] else []) ++
      (if d.done then [] else emittedChunks rest)

/- ---- ChatbotUI.loadPaperThreads ----
    const response = await this.apiClient.getPaperThreads(this.currentPaperId);
    this.threads = response.threads.sort((a, b) => new Date(b.updated_at) - new Date(a.updated_at));
`updated_at` is modelled as milliseconds since the epoch; the comparator
orders by `updated_at` descending and `Array.prototype.sort` produces a
comparator-sorted permutation of its input. -/

structure ChatThread where
  id : String
  title : String
  message_count : Nat
  updated_at : Nat
deriving DecidableEq

def threadBefore (a b : ChatThread) : Prop :=
  b.updated_at ≤ a.updated_at

instance : DecidableRel threadBefore :=
  fun _ _ => Nat.decLe _ _

instance : IsTotal ChatThread threadBefore :=
  ⟨fun a b => Nat.le_total b.updated_at a.updated_at⟩

instance : IsTrans ChatThread threadBefore :=
  ⟨fun _ _ _ h₁ h₂ => Nat.le_trans h₂ h₁⟩

def loadPaperThreads (threads : List ChatThread) : List ChatThread :=
  List.insertionSort threadBefore threads

/- ---- ChatbotUI.formatMessageContent ----
    if (!content) return '';
    return content
        .replace(/\*\*(.*?)\*\*/g, '<strong>$1</strong>')
        .replace(/\*(.*?)\*/g, '<em>$1</em>')
        .replace(/`(.*?)`/g, '<code>$1</code>')
        .replace(/\n/g, '<br>');
Each paired-delimiter regex is leftmost, non-greedy and global, and `.`
does not match line terminators: at a position where the delimiter
occurs, the match closes at the next occurrence of the delimiter
provided the content in between contains no line terminator; otherwise
the scan advances one character. -/

/-- Split the list at the first occurrence of the sublist `d`, returning
the part before it and the part after it. -/
def splitAtSub (d : List Char) : List Char → Option (List Char × List Char)
  | [] => none
  | c :: cs =>
    if d.isPrefixOf (c :: cs) then some ([], (c :: cs).drop d.length)
    else
      match splitAtSub d cs with
      | some (pre, rest) => some (c :: pre, rest)
      | none => none

/-- One global, leftmost, non-greedy paired-delimiter replacement pass.
The `fuel` argument (always called with the length of the list, which
bounds the number of scan positions) only makes the recursion
structural; it is never exhausted. -/
def replaceDelimAux (d l r : List Char) : Nat → List Char → List Char
  | _, [] => []
  | 0, cs => cs
  | Nat.succ n, c :: cs =>
    if d.isPrefixOf (c :: cs) then
      match splitAtSub d ((c :: cs).drop d.length) with
      | some (content, rest) =>
        if content.contains '\n' || content.contains '\r' then
          c :: replaceDelimAux d l r n cs
        else
          l ++ content ++ r ++ replaceDelimAux d l r n rest
      | none => c :: replaceDelimAux d l r n cs
    else c :: replaceDelimAux d l r n cs

def replaceDelim (d l r s : String) : String :=
  String.mk (replaceDelimAux d.toList l.toList r.toList s.toList.length s.toList)

def replaceNewlines (s : String) : String :=
  String.mk (s.toList.map fun c => if c = '\n' then ['<', 'b', 'r', '>'] else [c]).flatten

def formatMessageContent (content : String) : String :=
  if content = "" then ""
  else
    replaceNewlines (replaceDelim "`" "<code>" "</code>"
      (replaceDelim "*" "<em>" "</em>"
        (replaceDelim "**" "<strong>" "</strong>" content)))

/- ---- ChatbotUI: client conversation controller ----
The DOM inside `#chat-messages` is modelled as a list of elements with
unique numeric ids standing for the random `msg_...`/`typing_...` ids the
code generates.  An element's `streaming` flag models both the
`streaming` class on the message div and the `#streaming-text` id on its
text node (the code always sets and clears the two together).  `kind`
records the CSS class relevant to `renderMessages`, whose
`querySelectorAll('.chat-message')` matches message divs and typing
indicators but not the `chat-loading` div.  A handler that dereferences a
DOM element that no longer exists throws a `TypeError`; for callbacks
invoked from the SSE loop of `streamMessage` the exception is swallowed
by that loop's `catch`, so the handler's remaining statements simply do
not execute. -/

inductive ElemKind where
  | message
  | typing
  | loading
deriving DecidableEq

structure Elem where
  eid : Nat
  role : String
  text : String
  streaming : Bool
  kind : ElemKind
deriving DecidableEq

structure HistMsg where
  role : String
  content : String
deriving DecidableEq

structure UIState where
  currentThreadId : Option String
  messages : List HistMsg
  dom : List Elem
  nextId : Nat
  isStreaming : Bool
  sendDisabled : Bool
  chatInput : String
  status : String
  refreshCount : Nat
deriving DecidableEq

/-- The text `handleStreamingError` writes into the failed message. -/
def errorNotice (msg : String) : String :=
  "<span class=\"text-danger\">Error: " ++ msg ++ "</span>"

/-- The message `showStatus` receives on a stream error (the surrounding
alert markup is presentation). -/
def chatErrorStatus (msg : String) : String :=
  "Chat error: " ++ msg

/-- `ChatbotUI.addMessage`: appends a message div (with a fresh id) whose
text renders the content through `formatMessageContent`; returns the new
element's id. -/
def addMessage (s : UIState) (role content : String) (streaming : Bool) : UIState × Nat :=
  ({ s with
      dom := s.dom ++ [{ eid := s.nextId, role := role,
                         text := formatMessageContent content,
                         streaming := streaming, kind := ElemKind.message }],
      nextId := s.nextId + 1 },
   s.nextId)

/-- `ChatbotUI.showTypingIndicator`: appends the typing-indicator div
(class `chat-message assistant-message`) and returns its id. -/
def showTypingIndicator (s : UIState) : UIState × Nat :=
  ({ s with
      dom := s.dom ++ [{ eid := s.nextId, role := "assistant", text := "",
                         streaming := false, kind := ElemKind.typing }],
      nextId := s.nextId + 1 },
   s.nextId)

/-- `ChatbotUI.removeTypingIndicator`: guarded removal by element id. -/
def removeTypingIndicator (s : UIState) (indicatorId : Nat) : UIState :=
  { s with dom := s.dom.filter fun el => el.eid != indicatorId }

/-- JS `document.getElementById` over the modelled container. -/
def domFind (s : UIState) (eid : Nat) : Option Elem :=
  s.dom.find? fun el => el.eid == eid

/-- `ChatbotUI.updateStreamingMessage`: appends the escaped chunk to the
`#streaming-text` node.  A missing element throws before any mutation (the
SSE loop swallows the exception); a present element without the
`#streaming-text` id fails the `if (textElement)` guard. -/
def updateStreamingMessage (s : UIState) (messageId : Option Nat) (chunk : String) : UIState :=
  match messageId with
  | none => s
  | some rid =>
    match domFind s rid with
    | none => s
    | some el =>
      if el.streaming then
        { s with dom := s.dom.map fun x =>
            if x.eid = rid then { x with text := x.text ++ escapeHtml chunk } else x }
      else s

/-- `ChatbotUI.completeStreamingMessage`: clears the streaming state and
refreshes the thread list; a missing element throws on
`messageDiv.classList` before `loadPaperThreads()` is reached, so the
refresh is skipped. -/
def completeStreamingMessage (s : UIState) (rid : Nat) : UIState :=
  match domFind s rid with
  | none => s
  | some _ =>
    { s with
      dom := s.dom.map fun x => if x.eid = rid then { x with streaming := false } else x,
      refreshCount := s.refreshCount + 1 }

/-- `ChatbotUI.handleStreamingError`: replaces the text of the streaming
node with the error notice, clears the streaming state and surfaces the
status; a missing element throws on `messageDiv.querySelector` before any
of that happens. -/
def handleStreamingError (s : UIState) (rid : Nat) (emsg : String) : UIState :=
  match domFind s rid with
  | none => s
  | some _ =>
    { s with
      dom := s.dom.map fun x =>
        if x.eid = rid then
          if x.streaming then { x with text := errorNotice emsg, streaming := false }
          else { x with streaming := false }
        else x,
      status := chatErrorStatus emsg }

/-- `ChatbotUI.renderMessages`: with an empty message list it only shows
the welcome block and returns; otherwise it removes every `.chat-message`
element and re-adds the loaded messages. -/
def renderMessages (s : UIState) : UIState :=
  if s.messages = [] then s
  else
    (s.messages.foldl (fun st m => (addMessage st m.role m.content false).1)
      { s with dom := s.dom.filter fun el =>
          !(el.kind == ElemKind.message || el.kind == ElemKind.typing) })

/-- `ChatbotUI.loadThread`: sets the current thread, shows the loading
block, stores the fetched history, re-renders, and clears the status
(`updateThreadList`/`hideSidebar` touch only presentation state). -/
def loadThread (s : UIState) (threadId : String) (history : List HistMsg) : UIState :=
  { renderMessages
      { s with
        currentThreadId := some threadId,
        dom := s.dom ++ [{ eid := s.nextId, role := "", text := "Loading conversation...",
                           streaming := false, kind := ElemKind.loading }],
        nextId := s.nextId + 1,
        messages := history }
    with status := "" }

/-- An event observed by the controller during a send: a stream callback,
or a completed `loadThread` the user triggered from the sidebar. -/
inductive UIEvent where
  | cb (e : CbEvent)
  | switchThread (threadId : String) (history : List HistMsg)
deriving DecidableEq

def chunkEv (c : String) : UIEvent :=
  UIEvent.cb (CbEvent.chunk c)

/-- The local variables of `ChatbotUI.sendMessage` that the stream
callbacks close over. -/
structure SendLocal where
  firstChunk : Bool
  responseId : Option Nat
  typingId : Nat
deriving DecidableEq

/-- One controller step: the chunk/complete/error callbacks registered by
`sendMessage`, or a thread switch happening between stream events. -/
def stepUI : UIState × SendLocal → UIEvent → UIState × SendLocal
  | (s, loc), UIEvent.cb (CbEvent.chunk c) =>
    if loc.firstChunk then
      let s₁ := removeTypingIndicator s loc.typingId
      let p := addMessage s₁ "assistant" "" true
      let loc₁ : SendLocal :=
        { firstChunk := false, responseId := some p.2, typingId := loc.typingId }
      (updateStreamingMessage p.1 loc₁.responseId c, loc₁)
    else
      (updateStreamingMessage s loc.responseId c, loc)
  | (s, loc), UIEvent.cb (CbEvent.complete _) =>
    match loc.responseId with
    | some rid => (completeStreamingMessage s rid, loc)
    | none => (s, loc)
  | (s, loc), UIEvent.cb (CbEvent.error emsg) =>
    match loc.responseId with
    | some rid => (handleStreamingError (removeTypingIndicator s loc.typingId) rid emsg, loc)
    | none =>
      ({ removeTypingIndicator s loc.typingId with status := chatErrorStatus emsg }, loc)
  | (s, loc), UIEvent.switchThread tid hist => (loadThread s tid hist, loc)

/-- The part of `ChatbotUI.sendMessage` before the first stream event:
clear the input, disable sends, set `isStreaming`, append the optimistic
user message, show the typing indicator. -/
def sendBegin (s : UIState) : UIState × SendLocal :=
  let p₁ := addMessage
    { s with chatInput := "", sendDisabled := true, isStreaming := true }
    "user" (jsTrim s.chatInput) false
  let p₂ := showTypingIndicator p₁.1
  (p₂.1, { firstChunk := true, responseId := none, typingId := p₂.2 })

/-- `ChatbotUI.sendMessage`: the guard `!message || this.isStreaming ||
!this.currentThreadId` rejects the call with no state change; otherwise
the send proceeds, the registered callbacks consume the events of the
stream, and the `finally` block clears `isStreaming` and re-enables the
send control. -/
def sendMessage (s : UIState) (events : List UIEvent) : UIState :=
  if jsTrim s.chatInput = "" ∨ s.isStreaming = true ∨ s.currentThreadId = none then s
  else
    { (events.foldl stepUI (sendBegin s)).1 with
      isStreaming := false, sendDisabled := false }

/-- Concatenation of a list of strings, in order. -/
def joinAll : List String → String
  | [] => ""
  | s :: ss => s ++ joinAll ss

/-- Whether a controller event is a stream callback (as opposed to a
thread switch). -/
def isCb : UIEvent → Bool
  | UIEvent.cb _ => true
  | UIEvent.switchThread _ _ => false


theorem string_mk_append (l₁ l₂ : List Char) :
    String.mk (l₁ ++ l₂) = String.mk l₁ ++ String.mk l₂ := rfl

theorem string_toList_append (a b : String) :
    (a ++ b).toList = a.toList ++ b.toList := rfl

theorem string_eq_empty_iff (t : String) : t = "" ↔ t.length = 0 := by
  constructor
  · intro h
    subst h
    rfl
  · intro h
    cases t with
    | mk d =>
      have hd : d.length = 0 := h
      have hnil : d = [] := List.length_eq_zero.mp hd
      rw [hnil]

theorem append_ne_empty_of_left (a b : String) (h : a.length ≠ 0) : a ++ b ≠ "" := by
  intro hcon
  have := (string_eq_empty_iff (a ++ b)).mp hcon
  rw [String.length_append] at this
  omega

theorem noUnsafeChars_escapeCharL (c : Char) : noUnsafeChars (escapeCharL c) = true := by
  unfold escapeCharL
  split_ifs with h1 h2 h3 h4 h5
  · decide
  · decide
  · decide
  · decide
  · decide
  · simp only [noUnsafeChars, List.all_cons, List.all_nil, Bool.and_true]
    simp [h2, h3, h4, h5]

theorem noUnsafeChars_append (l₁ l₂ : List Char) :
    noUnsafeChars (l₁ ++ l₂) = (noUnsafeChars l₁ && noUnsafeChars l₂) := by
  simp [noUnsafeChars, List.all_append]

theorem ampOk_ent_amp (r : List Char) : ampOk ('&' :: 'a' :: 'm' :: 'p' :: ';' :: r) = ampOk r := by
  simp [ampOk, List.isPrefixOf]

theorem ampOk_ent_lt (r : List Char) : ampOk ('&' :: 'l' :: 't' :: ';' :: r) = ampOk r := by
  simp [ampOk, List.isPrefixOf]

theorem ampOk_ent_gt (r : List Char) : ampOk ('&' :: 'g' :: 't' :: ';' :: r) = ampOk r := by
  simp [ampOk, List.isPrefixOf]

theorem ampOk_ent_quot (r : List Char) : ampOk ('&' :: 'q' :: 'u' :: 'o' :: 't' :: ';' :: r) = ampOk r := by
  simp [ampOk, List.isPrefixOf]

theorem ampOk_ent_apos (r : List Char) : ampOk ('&' :: '#' :: '0' :: '3' :: '9' :: ';' :: r) = ampOk r := by
  simp [ampOk, List.isPrefixOf]

theorem ampOk_cons_ne (c : Char) (r : List Char) (h : ¬c = '&') : ampOk (c :: r) = ampOk r := by
  simp only [ampOk]
  rw [if_neg h]

theorem ampOk_escapeCharL_append (c : Char) (rest : List Char) (h : ampOk rest = true) :
    ampOk (escapeCharL c ++ rest) = true := by
  unfold escapeCharL
  split_ifs with h1 h2 h3 h4 h5
  · simp only [List.cons_append, List.nil_append]
    rw [ampOk_ent_amp]
    exact h
  · simp only [List.cons_append, List.nil_append]
    rw [ampOk_ent_lt]
    exact h
  · simp only [List.cons_append, List.nil_append]
    rw [ampOk_ent_gt]
    exact h
  · simp only [List.cons_append, List.nil_append]
    rw [ampOk_ent_quot]
    exact h
  · simp only [List.cons_append, List.nil_append]
    rw [ampOk_ent_apos]
    exact h
  · simp only [List.cons_append, List.nil_append]
    rw [ampOk_cons_ne c rest h1]
    exact h

theorem noUnsafeChars_escaped (l : List Char) :
    noUnsafeChars (l.map escapeCharL).flatten = true := by
  induction l with
  | nil => decide
  | cons c cs ih =>
    simp only [List.map_cons, List.flatten_cons]
    rw [noUnsafeChars_append, ih, noUnsafeChars_escapeCharL]
    rfl

theorem ampOk_escaped (l : List Char) :
    ampOk (l.map escapeCharL).flatten = true := by
  induction l with
  | nil => simp [ampOk]
  | cons c cs ih =>
    simp only [List.map_cons, List.flatten_cons]
    exact ampOk_escapeCharL_append c _ ih

theorem escapeHtml_toList (s : String) :
    (escapeHtml s).toList = (s.toList.map escapeCharL).flatten := rfl

theorem escapeHtml_append (a b : String) :
    escapeHtml (a ++ b) = escapeHtml a ++ escapeHtml b := by
  unfold escapeHtml
  rw [string_toList_append, List.map_append, List.flatten_append, string_mk_append]

/-- C10: for every input string, `escapeHtml` produces a string without
`<`, `>`, `"` or apostrophe characters, in which every `&` starts one of
the five produced entities, and `escapeHtml` distributes over string
concatenation. -/
theorem escapeHtml_safe_and_distributive (s a b : String) :
    noUnsafeChars (escapeHtml s).toList = true ∧
    ampOk (escapeHtml s).toList = true ∧
    escapeHtml (a ++ b) = escapeHtml a ++ escapeHtml b := by
  refine ⟨?_, ?_, escapeHtml_append a b⟩
  · rw [escapeHtml_toList]
    exact noUnsafeChars_escaped s.toList
  · rw [escapeHtml_toList]
    exact ampOk_escaped s.toList

/-- C8: `validateChatMessage` reports invalid (with empty sanitized text)
exactly when the trimmed message is empty or longer than 10,000
characters; otherwise it reports valid with the trimmed message
HTML-escaped as the sanitized text. -/
theorem validateChatMessage_spec (m : String) :
    ((validateChatMessage m).valid = false ↔
      (jsTrim m = "" ∨ (jsTrim m).length > 10000)) ∧
    ((validateChatMessage m).valid = false → (validateChatMessage m).sanitized = "") ∧
    ((validateChatMessage m).valid = true → (validateChatMessage m).sanitized = escapeHtml (jsTrim m)) := by
  by_cases hm : m = ""
  · subst hm
    decide
  · unfold validateChatMessage
    rw [if_neg hm]
    by_cases h0 : (jsTrim m).length = 0
    · have he : jsTrim m = "" := (string_eq_empty_iff _).mpr h0
      rw [if_pos h0]
      exact ⟨iff_of_true rfl (Or.inl he), fun _ => rfl, fun h => absurd h (by decide)⟩
    · by_cases hlong : (jsTrim m).length > 10000
      · rw [if_neg h0, if_pos hlong]
        exact ⟨iff_of_true rfl (Or.inr hlong), fun _ => rfl, fun h => absurd h (by decide)⟩
      · rw [if_neg h0, if_neg hlong]
        refine ⟨iff_of_false (by simp) ?_, fun h => absurd h (by simp), fun _ => rfl⟩
        intro hcon
        rcases hcon with h | h
        · exact h0 ((string_eq_empty_iff _).mp h)
        · exact hlong h

theorem validateChatMessage_spec_witness :
    (validateChatMessage "  hi <you>  ").sanitized = escapeHtml (jsTrim "  hi <you>  ") := by
  have h := validateChatMessage_spec "  hi <you>  "
  exact h.2.2 (by decide)

theorem lit_append_append_ne_empty (a m b : String) (h : a.length ≠ 0) : a ++ m ++ b ≠ "" := by
  apply append_ne_empty_of_left
  rw [String.length_append]
  omega

theorem ite_ne_empty (c : Prop) [Decidable c] (a b : String) (ha : a ≠ "") (hb : b ≠ "") :
    (if c then a else b) ≠ "" := by
  split
  · exact ha
  · exact hb

theorem getUserFriendlyMessage_ne_empty (message context : String) :
    getUserFriendlyMessage message context ≠ "" := by
  unfold getUserFriendlyMessage
  refine ite_ne_empty _ _ _ (by decide) ?_
  refine ite_ne_empty _ _ _ (by decide) ?_
  refine ite_ne_empty _ _ _ (by decide) ?_
  refine ite_ne_empty _ _ _ (by decide) ?_
  refine ite_ne_empty _ _ _ (by decide) ?_
  refine ite_ne_empty _ _ _ (by decide) ?_
  refine ite_ne_empty _ _ _ (by decide) ?_
  refine ite_ne_empty _ _ _ (append_ne_empty_of_left _ _ (by decide)) ?_
  refine ite_ne_empty _ _ _ (by decide) ?_
  refine ite_ne_empty _ _ _ (by decide) ?_
  refine ite_ne_empty _ _ _ (lit_append_append_ne_empty _ _ _ (by decide)) ?_
  refine ite_ne_empty _ _ _ (lit_append_append_ne_empty _ _ _ (by decide)) ?_
  refine ite_ne_empty _ _ _ (append_ne_empty_of_left _ _ (by decide)) ?_
  decide

/-- C9: the user-visible message produced by `ErrorHandler.parseError` is a
non-empty string computed only from the error's message text and the
context string; two errors with identical message and context but
different stack traces (or names, or timestamps) yield identical
user-visible messages. -/
theorem parseError_userMessage_hides_stack
    (m ctx nm₁ nm₂ now₁ now₂ : String) (st₁ st₂ : Option String) :
    (parseError (ErrArg.err m st₁ nm₁) ctx now₁).userMessage =
      (parseError (ErrArg.err m st₂ nm₂) ctx now₂).userMessage ∧
    (parseError (ErrArg.err m st₁ nm₁) ctx now₁).userMessage ≠ "" := by
  exact ⟨rfl, getUserFriendlyMessage_ne_empty m ctx⟩

/-- Once a terminal event has been reached, everything after it in the
stream is ignored: appending further events (duplicate terminals
included) does not change the callback sequence. -/
theorem processEvents_stops_at_terminal (evts : List SSEData) (t : CbEvent)
    (h : terminalOf evts = some t) :
    ∀ extra, processEvents (evts ++ extra) = processEvents evts := by
  induction evts with
  | nil => simp [terminalOf] at h
  | cons d rest ih =>
    intro extra
    by_cases he : d.error ≠ ""
    · simp [processEvents, he]
    · by_cases hd : d.done
      · simp [processEvents, he, hd]
      · have h' : terminalOf rest = some t := by
          simpa [terminalOf, he, hd] using h
        simp [processEvents, he, hd, ih h' extra]

/-- C1: on a stream containing a terminal event, the callbacks invoked by
`ChatbotAPIClient.streamMessage` are the stream's chunk payloads in
order, followed by exactly one terminal callback (matching the first
terminal event), and events after the first terminal event — duplicate
terminals included — cause no further callback. -/
theorem streamMessage_callback_protocol (evts : List SSEData) (t : CbEvent)
    (h : terminalOf evts = some t) :
    processEvents evts = (emittedChunks evts).map CbEvent.chunk ++ [t] ∧
    ∀ extra, processEvents (evts ++ extra) = processEvents evts := by
  refine ⟨?_, processEvents_stops_at_terminal evts t h⟩
  induction evts with
  | nil => simp [terminalOf] at h
  | cons d rest ih =>
    by_cases he : d.error ≠ ""
    · have ht : t = CbEvent.error d.error := by
        have := h
        simp [terminalOf, he] at this
        exact this.symm
      subst ht
      simp [processEvents, emittedChunks, he]
    · by_cases hd : d.done
      · have ht : t = CbEvent.complete d.message_id := by
          have := h
          simp [terminalOf, he, hd] at this
          exact this.symm
        subst ht
        by_cases hc : d.chunk = "" <;>
          simp [processEvents, emittedChunks, he, hd, hc]
      · have h' : terminalOf rest = some t := by
          simpa [terminalOf, he, hd] using h
        have hrest := ih h'
        by_cases hc : d.chunk = "" <;>
          simp [processEvents, emittedChunks, he, hd, hc, hrest]

theorem streamMessage_callback_protocol_witness :
    processEvents [⟨"", "Hello ", false, ""⟩, ⟨"", "world", true, "m1"⟩] =
      [CbEvent.chunk "Hello ", CbEvent.chunk "world", CbEvent.complete "m1"] ∧
    processEvents ([⟨"", "Hello ", false, ""⟩, ⟨"", "world", true, "m1"⟩] ++
        [⟨"", "", true, "m1"⟩]) =
      processEvents [⟨"", "Hello ", false, ""⟩, ⟨"", "world", true, "m1"⟩] := by
  have h := streamMessage_callback_protocol
    [⟨"", "Hello ", false, ""⟩, ⟨"", "world", true, "m1"⟩]
    (CbEvent.complete "m1") (by decide)
  exact ⟨h.1.trans (by decide), h.2 _⟩

/-- C7: after `ChatbotUI.loadPaperThreads` stores the server response, the
controller's thread list is a permutation of the returned threads sorted
by `updated_at` descending: every thread appears before every thread
with a strictly smaller `updated_at`. -/
theorem loadPaperThreads_sorted_perm (resp : List ChatThread) :
    List.Perm (loadPaperThreads resp) resp ∧
    List.Pairwise (fun a b => b.updated_at ≤ a.updated_at) (loadPaperThreads resp) := by
  constructor
  · exact List.perm_insertionSort threadBefore resp
  · exact List.sorted_insertionSort threadBefore resp

theorem string_append_assoc (a b c : String) : a ++ b ++ c = a ++ (b ++ c) := by
  cases a with | mk x =>
  cases b with | mk y =>
  cases c with | mk z =>
  show String.mk (x ++ y ++ z) = String.mk (x ++ (y ++ z))
  rw [List.append_assoc]

theorem string_append_empty (a : String) : a ++ "" = a := by
  cases a with | mk x =>
  show String.mk (x ++ []) = String.mk x
  rw [List.append_nil]

theorem joinAll_map_escapeHtml (l : List String) :
    joinAll (l.map escapeHtml) = escapeHtml (joinAll l) := by
  induction l with
  | nil => rfl
  | cons s ss ih =>
    show escapeHtml s ++ joinAll (ss.map escapeHtml) = escapeHtml (s ++ joinAll ss)
    rw [ih, escapeHtml_append]

theorem map_eq_self_of {α : Type} (l : List α) (f : α → α) (h : ∀ x ∈ l, f x = x) :
    l.map f = l := by
  induction l with
  | nil => rfl
  | cons a t ih =>
    rw [List.map_cons, h a (List.mem_cons_self a t),
      ih fun x hx => h x (List.mem_cons_of_mem a hx)]

theorem find?_append_of_none {α : Type} (l₁ l₂ : List α) (p : α → Bool)
    (h : ∀ x ∈ l₁, p x = false) : (l₁ ++ l₂).find? p = l₂.find? p := by
  induction l₁ with
  | nil => rfl
  | cons a t ih =>
    rw [List.cons_append, List.find?_cons_of_neg]
    · exact ih fun x hx => h x (List.mem_cons_of_mem a hx)
    · simp [h a (List.mem_cons_self a t)]

theorem renderFold_flags (msgs : List HistMsg) (st : UIState) :
    (msgs.foldl (fun t m => (addMessage t m.role m.content false).1) st).isStreaming
        = st.isStreaming ∧
    (msgs.foldl (fun t m => (addMessage t m.role m.content false).1) st).sendDisabled
        = st.sendDisabled := by
  induction msgs generalizing st with
  | nil => exact ⟨rfl, rfl⟩
  | cons m ms ih => exact ih _

theorem loadThread_flags (s : UIState) (tid : String) (hist : List HistMsg) :
    (loadThread s tid hist).isStreaming = s.isStreaming ∧
    (loadThread s tid hist).sendDisabled = s.sendDisabled := by
  unfold loadThread renderMessages
  split
  · exact ⟨rfl, rfl⟩
  · exact renderFold_flags _ _

theorem stepUI_flags (p : UIState × SendLocal) (ev : UIEvent) :
    (stepUI p ev).1.isStreaming = p.1.isStreaming ∧
    (stepUI p ev).1.sendDisabled = p.1.sendDisabled := by
  obtain ⟨s, loc⟩ := p
  cases ev with
  | cb e =>
    cases e with
    | chunk c =>
      by_cases hfc : loc.firstChunk
      · simp only [stepUI, if_pos hfc]
        unfold updateStreamingMessage
        repeat' split
        all_goals exact ⟨rfl, rfl⟩
      · simp only [stepUI, if_neg hfc]
        unfold updateStreamingMessage
        repeat' split
        all_goals exact ⟨rfl, rfl⟩
    | complete mid =>
      simp only [stepUI]
      unfold completeStreamingMessage
      repeat' split
      all_goals exact ⟨rfl, rfl⟩
    | error emsg =>
      simp only [stepUI]
      unfold handleStreamingError removeTypingIndicator
      repeat' split
      all_goals exact ⟨rfl, rfl⟩
  | switchThread tid hist =>
    simp only [stepUI]
    exact loadThread_flags s tid hist

theorem foldUI_flags (events : List UIEvent) (p : UIState × SendLocal) :
    (events.foldl stepUI p).1.isStreaming = p.1.isStreaming ∧
    (events.foldl stepUI p).1.sendDisabled = p.1.sendDisabled := by
  induction events generalizing p with
  | nil => exact ⟨rfl, rfl⟩
  | cons ev evs ih =>
    have h1 := stepUI_flags p ev
    have h2 := ih (stepUI p ev)
    exact ⟨h2.1.trans h1.1, h2.2.trans h1.2⟩

/-- C3: whenever a streaming send is active (`isStreaming` set), a further
call to `ChatbotUI.sendMessage` returns without appending a message,
starting a stream, or changing any controller state. -/
theorem sendMessage_rejects_concurrent (s : UIState) (events : List UIEvent)
    (h : s.isStreaming = true) : sendMessage s events = s := by
  unfold sendMessage
  rw [if_pos (Or.inr (Or.inl h))]

theorem sendMessage_rejects_concurrent_witness :
    sendMessage
      { currentThreadId := some "t1", messages := [], dom := [], nextId := 5,
        isStreaming := true, sendDisabled := true, chatInput := "second send",
        status := "", refreshCount := 0 }
      [chunkEv "x", UIEvent.cb (CbEvent.complete "m")] =
      { currentThreadId := some "t1", messages := [], dom := [], nextId := 5,
        isStreaming := true, sendDisabled := true, chatInput := "second send",
        status := "", refreshCount := 0 } :=
  sendMessage_rejects_concurrent _ _ rfl

theorem sendBegin_eq (s : UIState) :
    sendBegin s =
      ({ s with
          chatInput := "", sendDisabled := true, isStreaming := true,
          dom := s.dom ++
            [{ eid := s.nextId, role := "user",
               text := formatMessageContent (jsTrim s.chatInput), streaming := false,
               kind := ElemKind.message },
             { eid := s.nextId + 1, role := "assistant", text := "", streaming := false,
               kind := ElemKind.typing }],
          nextId := s.nextId + 2 },
       { firstChunk := true, responseId := none, typingId := s.nextId + 1 }) := by
  unfold sendBegin addMessage showTypingIndicator
  simp [List.append_assoc]

/-- C5: a send of a non-empty message with a selected thread appends the
optimistic user message (and typing indicator) before any stream event is
processed, starts with sends disabled and `isStreaming` set, keeps both
through every stream event, and after the terminal event the `finally`
block clears `isStreaming` and re-enables the send control. -/
theorem sendMessage_optimistic_and_gating (s : UIState) (events : List UIEvent)
    (hmsg : jsTrim s.chatInput ≠ "") (hstream : s.isStreaming = false)
    (hthread : s.currentThreadId ≠ none) :
    (sendBegin s).1.dom = s.dom ++
      [{ eid := s.nextId, role := "user",
         text := formatMessageContent (jsTrim s.chatInput), streaming := false,
         kind := ElemKind.message },
       { eid := s.nextId + 1, role := "assistant", text := "", streaming := false,
         kind := ElemKind.typing }] ∧
    (sendBegin s).1.isStreaming = true ∧
    (sendBegin s).1.sendDisabled = true ∧
    (events.foldl stepUI (sendBegin s)).1.isStreaming = true ∧
    (events.foldl stepUI (sendBegin s)).1.sendDisabled = true ∧
    (sendMessage s events).isStreaming = false ∧
    (sendMessage s events).sendDisabled = false := by
  have hb := sendBegin_eq s
  have hguard : ¬(jsTrim s.chatInput = "" ∨ s.isStreaming = true ∨ s.currentThreadId = none) := by
    push_neg
    refine ⟨hmsg, ?_, hthread⟩
    simp [hstream]
  have hf := foldUI_flags events (sendBegin s)
  refine ⟨by rw [hb], by rw [hb], by rw [hb], ?_, ?_, ?_, ?_⟩
  · rw [hf.1, hb]
  · rw [hf.2, hb]
  · unfold sendMessage
    rw [if_neg hguard]
  · unfold sendMessage
    rw [if_neg hguard]

theorem sendMessage_optimistic_and_gating_witness :
    (sendMessage
      { currentThreadId := some "A", messages := [], dom := [], nextId := 0,
        isStreaming := false, sendDisabled := false, chatInput := "hello",
        status := "", refreshCount := 0 }
      [chunkEv "hi", UIEvent.cb (CbEvent.complete "m1")]).isStreaming = false ∧
    (sendMessage
      { currentThreadId := some "A", messages := [], dom := [], nextId := 0,
        isStreaming := false, sendDisabled := false, chatInput := "hello",
        status := "", refreshCount := 0 }
      [chunkEv "hi", UIEvent.cb (CbEvent.complete "m1")]).sendDisabled = false := by
  have h := sendMessage_optimistic_and_gating
    { currentThreadId := some "A", messages := [], dom := [], nextId := 0,
      isStreaming := false, sendDisabled := false, chatInput := "hello",
      status := "", refreshCount := 0 }
    [chunkEv "hi", UIEvent.cb (CbEvent.complete "m1")]
    (by decide) rfl (by decide)
  exact ⟨h.2.2.2.2.2.1, h.2.2.2.2.2.2⟩

theorem stepUI_first_chunk (s : UIState) (loc : SendLocal) (c : String)
    (hfc : loc.firstChunk = true)
    (hfresh : ∀ x ∈ s.dom, x.eid ≠ s.nextId) :
    stepUI (s, loc) (chunkEv c) =
      ({ s with
          dom := (s.dom.filter fun el => el.eid != loc.typingId) ++
            [{ eid := s.nextId, role := "assistant", text := escapeHtml c,
               streaming := true, kind := ElemKind.message }],
          nextId := s.nextId + 1 },
       { firstChunk := false, responseId := some s.nextId, typingId := loc.typingId }) := by
  have hmem : ∀ x ∈ s.dom.filter (fun el => el.eid != loc.typingId),
      (x.eid == s.nextId) = false := by
    intro x hx
    have hmem' := List.mem_of_mem_filter hx
    simp [hfresh x hmem']
  simp only [chunkEv, stepUI, if_pos hfc]
  unfold updateStreamingMessage domFind addMessage removeTypingIndicator
  simp only []
  rw [find?_append_of_none _ _ _ hmem, List.find?_cons_of_pos _ (by simp)]
  simp only [if_pos rfl]
  rw [List.map_append, map_eq_self_of _ _ ?hside]
  case hside =>
    intro x hx
    exact if_neg (by simpa using hmem x hx)
  simp [formatMessageContent]

theorem stepUI_next_chunk (s : UIState) (loc : SendLocal) (c : String) (rid : Nat)
    (front : List Elem) (el : Elem)
    (hfc : loc.firstChunk = false) (hrid : loc.responseId = some rid)
    (hdom : s.dom = front ++ [el]) (heid : el.eid = rid) (hstr : el.streaming = true)
    (hfront : ∀ x ∈ front, x.eid ≠ rid) :
    stepUI (s, loc) (chunkEv c) =
      ({ s with dom := front ++ [{ el with text := el.text ++ escapeHtml c }] }, loc) := by
  have hmem : ∀ x ∈ front, (x.eid == rid) = false := by
    intro x hx
    simp [hfront x hx]
  simp only [chunkEv, stepUI]
  rw [if_neg (by simp [hfc]), hrid]
  unfold updateStreamingMessage domFind
  simp only []
  rw [hdom, find?_append_of_none _ _ _ hmem, List.find?_cons_of_pos _ (by simp [heid])]
  simp only []
  rw [if_pos hstr]
  rw [List.map_append, map_eq_self_of _ _ ?hside]
  case hside =>
    intro x hx
    exact if_neg (by simpa [heid] using hfront x hx)
  simp [heid]

theorem chunks_fold (cs : List String) (s : UIState) (loc : SendLocal) (rid : Nat)
    (front : List Elem) (el : Elem)
    (hfc : loc.firstChunk = false) (hrid : loc.responseId = some rid)
    (hdom : s.dom = front ++ [el]) (heid : el.eid = rid) (hstr : el.streaming = true)
    (hfront : ∀ x ∈ front, x.eid ≠ rid) :
    (cs.map chunkEv).foldl stepUI (s, loc) =
      ({ s with dom := front ++ [{ el with text := el.text ++ joinAll (cs.map escapeHtml) }] },
       loc) := by
  induction cs generalizing s el with
  | nil =>
    simp only [List.map_nil, List.foldl_nil, joinAll]
    rw [string_append_empty]
    have h1 : ({ el with text := el.text } : Elem) = el := rfl
    rw [h1, ← hdom]
  | cons c cs' ih =>
    simp only [List.map_cons, List.foldl_cons]
    rw [stepUI_next_chunk s loc c rid front el hfc hrid hdom heid hstr hfront]
    rw [ih ({ s with dom := front ++ [{ el with text := el.text ++ escapeHtml c }] })
          ({ el with text := el.text ++ escapeHtml c }) rfl heid hstr]
    simp only [joinAll, List.map_cons]
    rw [string_append_assoc]

theorem stepUI_complete (s : UIState) (loc : SendLocal) (mid : String) (rid : Nat)
    (front : List Elem) (el : Elem)
    (hrid : loc.responseId = some rid)
    (hdom : s.dom = front ++ [el]) (heid : el.eid = rid)
    (hfront : ∀ x ∈ front, x.eid ≠ rid) :
    stepUI (s, loc) (UIEvent.cb (CbEvent.complete mid)) =
      ({ s with
          dom := front ++ [{ el with streaming := false }],
          refreshCount := s.refreshCount + 1 }, loc) := by
  have hmem : ∀ x ∈ front, (x.eid == rid) = false := by
    intro x hx
    simp [hfront x hx]
  simp only [stepUI]
  rw [hrid]
  simp only []
  unfold completeStreamingMessage domFind
  rw [hdom, find?_append_of_none _ _ _ hmem, List.find?_cons_of_pos _ (by simp [heid])]
  simp only []
  rw [List.map_append, map_eq_self_of _ _ ?hside]
  case hside =>
    intro x hx
    exact if_neg (by simpa [heid] using hfront x hx)
  simp [heid]

theorem stepUI_error_some (s : UIState) (loc : SendLocal) (emsg : String) (rid : Nat)
    (front : List Elem) (el : Elem)
    (hrid : loc.responseId = some rid)
    (hdom : s.dom = front ++ [el]) (heid : el.eid = rid) (hstr : el.streaming = true)
    (hfront : ∀ x ∈ front, x.eid ≠ rid)
    (hty : ∀ x ∈ s.dom, x.eid ≠ loc.typingId) :
    stepUI (s, loc) (UIEvent.cb (CbEvent.error emsg)) =
      ({ s with
          dom := front ++ [{ el with text := errorNotice emsg, streaming := false }],
          status := chatErrorStatus emsg }, loc) := by
  have hmem : ∀ x ∈ front, (x.eid == rid) = false := by
    intro x hx
    simp [hfront x hx]
  have hfilter : (s.dom.filter fun el => el.eid != loc.typingId) = s.dom := by
    apply List.filter_eq_self.mpr
    intro a ha
    simp [hty a ha]
  simp only [stepUI]
  rw [hrid]
  simp only []
  unfold handleStreamingError removeTypingIndicator domFind
  simp only []
  rw [hfilter, hdom, find?_append_of_none _ _ _ hmem, List.find?_cons_of_pos _ (by simp [heid])]
  simp only []
  rw [List.map_append, map_eq_self_of _ _ ?hside]
  case hside =>
    intro x hx
    exact if_neg (by simpa [heid] using hfront x hx)
  simp [heid, hstr]

theorem stepUI_error_none (s : UIState) (loc : SendLocal) (emsg : String)
    (hrid : loc.responseId = none) :
    stepUI (s, loc) (UIEvent.cb (CbEvent.error emsg)) =
      ({ s with
          dom := s.dom.filter fun el => el.eid != loc.typingId,
          status := chatErrorStatus emsg }, loc) := by
  simp only [stepUI]
  rw [hrid]
  simp only []
  unfold removeTypingIndicator
  rfl

theorem sendMessage_run (s : UIState) (events : List UIEvent)
    (hmsg : jsTrim s.chatInput ≠ "") (hstream : s.isStreaming = false)
    (hthread : s.currentThreadId ≠ none) :
    sendMessage s events =
      { (events.foldl stepUI (sendBegin s)).1 with
          isStreaming := false, sendDisabled := false } := by
  unfold sendMessage
  rw [if_neg]
  push_neg
  refine ⟨hmsg, ?_, hthread⟩
  simp [hstream]

theorem send_chunks_state (s : UIState) (c : String) (cs : List String)
    (hdom : ∀ el ∈ s.dom, el.eid < s.nextId) :
    ((c :: cs).map chunkEv).foldl stepUI (sendBegin s) =
      ({ s with
          chatInput := "", sendDisabled := true, isStreaming := true,
          dom := s.dom ++
            [{ eid := s.nextId, role := "user",
               text := formatMessageContent (jsTrim s.chatInput), streaming := false,
               kind := ElemKind.message },
             { eid := s.nextId + 2, role := "assistant",
               text := joinAll ((c :: cs).map escapeHtml), streaming := true,
               kind := ElemKind.message }],
          nextId := s.nextId + 3 },
       { firstChunk := false, responseId := some (s.nextId + 2),
         typingId := s.nextId + 1 }) := by
  rw [List.map_cons, List.foldl_cons, sendBegin_eq]
  rw [stepUI_first_chunk _ _ c rfl ?hfresh]
  case hfresh =>
    intro x hx
    show x.eid ≠ s.nextId + 2
    simp only [List.mem_append, List.mem_cons, List.mem_singleton] at hx
    rcases hx with hx | hx | hx
    · have := hdom x hx
      omega
    · rw [hx]
      show s.nextId ≠ s.nextId + 2
      omega
    · rcases hx with hx | hx
      · rw [hx]
        show s.nextId + 1 ≠ s.nextId + 2
        omega
      · cases hx
  have hfilt :
      ((s.dom ++
        [({ eid := s.nextId, role := "user",
            text := formatMessageContent (jsTrim s.chatInput), streaming := false,
            kind := ElemKind.message } : Elem),
         ({ eid := s.nextId + 1, role := "assistant", text := "", streaming := false,
            kind := ElemKind.typing } : Elem)]).filter fun el => el.eid != s.nextId + 1) =
      s.dom ++
        [({ eid := s.nextId, role := "user",
            text := formatMessageContent (jsTrim s.chatInput), streaming := false,
            kind := ElemKind.message } : Elem)] := by
    rw [List.filter_append]
    have h1 : (s.dom.filter fun el => el.eid != s.nextId + 1) = s.dom := by
      apply List.filter_eq_self.mpr
      intro a ha
      have := hdom a ha
      simp
      omega
    rw [h1]
    simp
  rw [hfilt]
  rw [chunks_fold cs _ _ (s.nextId + 2)
        (s.dom ++
          [{ eid := s.nextId, role := "user",
             text := formatMessageContent (jsTrim s.chatInput), streaming := false,
             kind := ElemKind.message }])
        { eid := s.nextId + 2, role := "assistant", text := escapeHtml c,
          streaming := true, kind := ElemKind.message }
        rfl rfl rfl rfl rfl ?hfront]
  case hfront =>
    intro x hx
    simp only [List.mem_append, List.mem_singleton] at hx
    rcases hx with hx | hx
    · have := hdom x hx
      omega
    · rw [hx]
      simp
  simp only [joinAll, List.map_cons, List.append_assoc, List.cons_append, List.nil_append]

/-- C2: a send whose stream delivers chunks `c :: cs` before its `done`
event accumulates them into a single in-progress assistant message whose
rendered text after each prefix of chunks is the in-order concatenation
of the HTML-escaped payloads received so far, and whose final text is the
concatenation of all of them; no chunk is dropped, duplicated or
reordered, and escaping distributes over the concatenation. -/
theorem sendMessage_accumulates_stream (s : UIState) (c : String) (cs : List String)
    (mid : String)
    (hmsg : jsTrim s.chatInput ≠ "") (hstream : s.isStreaming = false)
    (hthread : s.currentThreadId ≠ none)
    (hdom : ∀ el ∈ s.dom, el.eid < s.nextId) :
    sendMessage s ((c :: cs).map chunkEv ++ [UIEvent.cb (CbEvent.complete mid)]) =
      { s with
          chatInput := "", sendDisabled := false, isStreaming := false,
          dom := s.dom ++
            [{ eid := s.nextId, role := "user",
               text := formatMessageContent (jsTrim s.chatInput), streaming := false,
               kind := ElemKind.message },
             { eid := s.nextId + 2, role := "assistant",
               text := joinAll ((c :: cs).map escapeHtml), streaming := false,
               kind := ElemKind.message }],
          nextId := s.nextId + 3,
          refreshCount := s.refreshCount + 1 } ∧
    joinAll ((c :: cs).map escapeHtml) = escapeHtml (joinAll (c :: cs)) ∧
    ∀ k, (((c :: cs).take (k + 1)).map chunkEv).foldl stepUI (sendBegin s) =
      ({ s with
          chatInput := "", sendDisabled := true, isStreaming := true,
          dom := s.dom ++
            [{ eid := s.nextId, role := "user",
               text := formatMessageContent (jsTrim s.chatInput), streaming := false,
               kind := ElemKind.message },
             { eid := s.nextId + 2, role := "assistant",
               text := joinAll (((c :: cs).take (k + 1)).map escapeHtml), streaming := true,
               kind := ElemKind.message }],
          nextId := s.nextId + 3 },
       { firstChunk := false, responseId := some (s.nextId + 2),
         typingId := s.nextId + 1 }) := by
  refine ⟨?_, joinAll_map_escapeHtml (c :: cs), ?_⟩
  · rw [sendMessage_run s _ hmsg hstream hthread, List.foldl_append,
      send_chunks_state s c cs hdom, List.foldl_cons, List.foldl_nil]
    rw [stepUI_complete _ _ mid (s.nextId + 2)
          (s.dom ++
            [{ eid := s.nextId, role := "user",
               text := formatMessageContent (jsTrim s.chatInput), streaming := false,
               kind := ElemKind.message }])
          { eid := s.nextId + 2, role := "assistant",
            text := joinAll ((c :: cs).map escapeHtml), streaming := true,
            kind := ElemKind.message }
          rfl ?hd rfl ?hf]
    case hd =>
      simp [List.append_assoc]
    case hf =>
      intro x hx
      simp only [List.mem_append, List.mem_singleton] at hx
      rcases hx with hx | hx
      · have := hdom x hx
        omega
      · rw [hx]
        simp
    simp [List.append_assoc]
  · intro k
    rw [List.take_succ_cons, send_chunks_state s c (cs.take k) hdom]

theorem sendMessage_accumulates_stream_witness :
    sendMessage
      { currentThreadId := some "A", messages := [], dom := [], nextId := 0,
        isStreaming := false, sendDisabled := false, chatInput := "hello",
        status := "", refreshCount := 0 }
      [chunkEv "He", chunkEv "llo <b>", UIEvent.cb (CbEvent.complete "m1")] =
      { currentThreadId := some "A", messages := [], dom :=
          [{ eid := 0, role := "user", text := "hello", streaming := false,
             kind := ElemKind.message },
           { eid := 2, role := "assistant", text := "Hello &lt;b&gt;", streaming := false,
             kind := ElemKind.message }],
        nextId := 3, isStreaming := false, sendDisabled := false, chatInput := "",
        status := "", refreshCount := 1 } := by
  have h := sendMessage_accumulates_stream
    { currentThreadId := some "A", messages := [], dom := [], nextId := 0,
      isStreaming := false, sendDisabled := false, chatInput := "hello",
      status := "", refreshCount := 0 }
    "He" ["llo <b>"] "m1" (by decide) rfl (by decide) (by intro el hel; cases hel)
  exact (h.1).trans (by decide)

theorem filter_begin_dom (s : UIState) (hdom : ∀ el ∈ s.dom, el.eid < s.nextId) :
    ((s.dom ++
      [({ eid := s.nextId, role := "user",
          text := formatMessageContent (jsTrim s.chatInput), streaming := false,
          kind := ElemKind.message } : Elem),
       ({ eid := s.nextId + 1, role := "assistant", text := "", streaming := false,
          kind := ElemKind.typing } : Elem)]).filter fun el => el.eid != s.nextId + 1) =
    s.dom ++
      [({ eid := s.nextId, role := "user",
          text := formatMessageContent (jsTrim s.chatInput), streaming := false,
          kind := ElemKind.message } : Elem)] := by
  rw [List.filter_append]
  have h1 : (s.dom.filter fun el => el.eid != s.nextId + 1) = s.dom := by
    apply List.filter_eq_self.mpr
    intro a ha
    have := hdom a ha
    simp
    omega
  rw [h1]
  simp

/-- C6: on a terminal `error` event the in-progress assistant message (if
one was started) is marked failed — its streaming state is cleared and
its text replaced by the error notice — the error status is surfaced and
the send control is re-enabled; with no chunk yet received, the typing
indicator is removed and the error is surfaced via the status area
instead, with no assistant message ever added. -/
theorem sendMessage_error_marks_failed (s : UIState) (emsg : String)
    (hmsg : jsTrim s.chatInput ≠ "") (hstream : s.isStreaming = false)
    (hthread : s.currentThreadId ≠ none)
    (hdom : ∀ el ∈ s.dom, el.eid < s.nextId) :
    sendMessage s [UIEvent.cb (CbEvent.error emsg)] =
      { s with
          chatInput := "", sendDisabled := false, isStreaming := false,
          dom := s.dom ++
            [{ eid := s.nextId, role := "user",
               text := formatMessageContent (jsTrim s.chatInput), streaming := false,
               kind := ElemKind.message }],
          nextId := s.nextId + 2,
          status := chatErrorStatus emsg } ∧
    ∀ c cs, sendMessage s ((c :: cs).map chunkEv ++ [UIEvent.cb (CbEvent.error emsg)]) =
      { s with
          chatInput := "", sendDisabled := false, isStreaming := false,
          dom := s.dom ++
            [{ eid := s.nextId, role := "user",
               text := formatMessageContent (jsTrim s.chatInput), streaming := false,
               kind := ElemKind.message },
             { eid := s.nextId + 2, role := "assistant",
               text := errorNotice emsg, streaming := false,
               kind := ElemKind.message }],
          nextId := s.nextId + 3,
          status := chatErrorStatus emsg } := by
  constructor
  · rw [sendMessage_run s _ hmsg hstream hthread, List.foldl_cons, List.foldl_nil,
      sendBegin_eq, stepUI_error_none _ _ _ rfl]
    simp only []
    rw [filter_begin_dom s hdom]
  · intro c cs
    rw [sendMessage_run s _ hmsg hstream hthread, List.foldl_append,
      send_chunks_state s c cs hdom, List.foldl_cons, List.foldl_nil]
    rw [stepUI_error_some _ _ emsg (s.nextId + 2)
          (s.dom ++
            [{ eid := s.nextId, role := "user",
               text := formatMessageContent (jsTrim s.chatInput), streaming := false,
               kind := ElemKind.message }])
          { eid := s.nextId + 2, role := "assistant",
            text := joinAll ((c :: cs).map escapeHtml), streaming := true,
            kind := ElemKind.message }
          rfl ?hd rfl rfl ?hf ?ht]
    case hd =>
      simp [List.append_assoc]
    case hf =>
      intro x hx
      simp only [List.mem_append, List.mem_singleton] at hx
      rcases hx with hx | hx
      · have := hdom x hx
        omega
      · rw [hx]
        show s.nextId ≠ s.nextId + 2
        omega
    case ht =>
      intro x hx
      show x.eid ≠ s.nextId + 1
      simp only [List.mem_append, List.mem_cons, List.mem_singleton] at hx
      rcases hx with hx | hx | hx
      · have := hdom x hx
        omega
      · rw [hx]
        show s.nextId ≠ s.nextId + 1
        omega
      · rcases hx with hx | hx
        · rw [hx]
          show s.nextId + 2 ≠ s.nextId + 1
          omega
        · cases hx
    simp [List.append_assoc]

theorem sendMessage_error_marks_failed_witness :
    sendMessage
      { currentThreadId := some "A", messages := [], dom := [], nextId := 0,
        isStreaming := false, sendDisabled := false, chatInput := "hello",
        status := "", refreshCount := 0 }
      [chunkEv "He", UIEvent.cb (CbEvent.error "boom")] =
      { currentThreadId := some "A", messages := [],
        dom :=
          [{ eid := 0, role := "user", text := "hello", streaming := false,
             kind := ElemKind.message },
           { eid := 2, role := "assistant",
             text := "<span class=\"text-danger\">Error: boom</span>", streaming := false,
             kind := ElemKind.message }],
        nextId := 3, isStreaming := false, sendDisabled := false, chatInput := "",
        status := "Chat error: boom", refreshCount := 0 } := by
  have h := sendMessage_error_marks_failed
    { currentThreadId := some "A", messages := [], dom := [], nextId := 0,
      isStreaming := false, sendDisabled := false, chatInput := "hello",
      status := "", refreshCount := 0 }
    "boom" (by decide) rfl (by decide) (by intro el hel; cases hel)
  exact (h.2 "He" []).trans (by decide)

theorem renderFold_dom_bound (msgs : List HistMsg) (st : UIState) (x : Elem)
    (hx : x ∈ (msgs.foldl (fun t m => (addMessage t m.role m.content false).1) st).dom) :
    x ∈ st.dom ∨ st.nextId ≤ x.eid := by
  induction msgs generalizing st with
  | nil => exact Or.inl hx
  | cons m ms ih =>
    rcases ih _ hx with h | h
    · have h' : x ∈ st.dom ++
          [({ eid := st.nextId, role := m.role, text := formatMessageContent m.content,
              streaming := false, kind := ElemKind.message } : Elem)] := h
      rcases List.mem_append.mp h' with h1 | h1
      · exact Or.inl h1
      · right
        rw [List.mem_singleton.mp h1]
    · right
      have h2 : st.nextId + 1 ≤ x.eid := h
      omega

theorem loadThread_dom_mem (s : UIState) (tid : String) (hist : List HistMsg)
    (hhist : hist ≠ []) (x : Elem)
    (hx : x ∈ (loadThread s tid hist).dom) :
    (x ∈ s.dom ∧ (!(x.kind == ElemKind.message || x.kind == ElemKind.typing)) = true) ∨
    x.eid = s.nextId ∨ s.nextId + 1 ≤ x.eid := by
  unfold loadThread renderMessages at hx
  simp only [] at hx
  rw [if_neg hhist] at hx
  rcases renderFold_dom_bound hist _ x hx with h | h
  · have hmem : x ∈ s.dom ++
        [({ eid := s.nextId, role := "", text := "Loading conversation...",
            streaming := false, kind := ElemKind.loading } : Elem)] :=
      List.mem_of_mem_filter h
    have hp := List.of_mem_filter h
    rcases List.mem_append.mp hmem with h1 | h1
    · exact Or.inl ⟨h1, hp⟩
    · right
      left
      rw [List.mem_singleton.mp h1]
  · right
    right
    exact h

theorem renderFold_proj (msgs : List HistMsg) (st : UIState) :
    (msgs.foldl (fun t m => (addMessage t m.role m.content false).1) st).currentThreadId
        = st.currentThreadId ∧
    (msgs.foldl (fun t m => (addMessage t m.role m.content false).1) st).refreshCount
        = st.refreshCount := by
  induction msgs generalizing st with
  | nil => exact ⟨rfl, rfl⟩
  | cons m ms ih => exact ih _

theorem loadThread_proj (s : UIState) (tid : String) (hist : List HistMsg) :
    (loadThread s tid hist).currentThreadId = some tid ∧
    (loadThread s tid hist).refreshCount = s.refreshCount := by
  unfold loadThread renderMessages
  split
  · exact ⟨rfl, rfl⟩
  · exact renderFold_proj _ _

theorem stepUI_cb_noop (s : UIState) (loc : SendLocal) (e : CbEvent) (rid : Nat)
    (hfc : loc.firstChunk = false) (hrid : loc.responseId = some rid)
    (hfind : (s.dom.find? fun el => el.eid == rid) = none)
    (hty : ∀ x ∈ s.dom, x.eid ≠ loc.typingId) :
    stepUI (s, loc) (UIEvent.cb e) = (s, loc) := by
  have hfilter : (s.dom.filter fun el => el.eid != loc.typingId) = s.dom := by
    apply List.filter_eq_self.mpr
    intro a ha
    simp [hty a ha]
  cases e with
  | chunk c =>
    simp only [stepUI]
    rw [if_neg (by simp [hfc]), hrid]
    unfold updateStreamingMessage domFind
    simp only []
    rw [hfind]
  | complete mid =>
    simp only [stepUI]
    rw [hrid]
    simp only []
    unfold completeStreamingMessage domFind
    rw [hfind]
  | error emsg =>
    simp only [stepUI]
    rw [hrid]
    simp only []
    unfold handleStreamingError removeTypingIndicator domFind
    simp only []
    rw [hfilter, hfind]

theorem foldUI_cb_noop (rest : List UIEvent) (s : UIState) (loc : SendLocal) (rid : Nat)
    (hfc : loc.firstChunk = false) (hrid : loc.responseId = some rid)
    (hfind : (s.dom.find? fun el => el.eid == rid) = none)
    (hty : ∀ x ∈ s.dom, x.eid ≠ loc.typingId)
    (hrest : ∀ ev ∈ rest, isCb ev = true) :
    rest.foldl stepUI (s, loc) = (s, loc) := by
  induction rest with
  | nil => rfl
  | cons ev evs ih =>
    rw [List.foldl_cons]
    cases ev with
    | cb e =>
      rw [stepUI_cb_noop s loc e rid hfc hrid hfind hty]
      exact ih fun x hx => hrest x (List.mem_cons_of_mem _ hx)
    | switchThread tid hist =>
      exact absurd (hrest _ (List.mem_cons_self _ _)) (by simp [isCb])

/-- Counterexample to C4 as stated: the user sends on thread `A`, switches
to thread `B` before the first chunk arrives, and the chunk `"leaked"` is
then rendered — the in-progress assistant message is created inside the
newly displayed conversation of thread `B`, because the chunk handler has
no check that the originating thread is still active. -/
theorem loadThread_midstream_chunk_rendered_counterexample :
    (sendMessage
        { currentThreadId := some "A", messages := [], dom := [], nextId := 0,
          isStreaming := false, sendDisabled := false, chatInput := "hello",
          status := "", refreshCount := 0 }
        [UIEvent.switchThread "B" [{ role := "assistant", content := "welcome" }],
         chunkEv "leaked", UIEvent.cb (CbEvent.complete "m1")]).currentThreadId
      = some "B" ∧
    ({ eid := 4, role := "assistant", text := "leaked", streaming := false,
       kind := ElemKind.message } : Elem) ∈
      (sendMessage
        { currentThreadId := some "A", messages := [], dom := [], nextId := 0,
          isStreaming := false, sendDisabled := false, chatInput := "hello",
          status := "", refreshCount := 0 }
        [UIEvent.switchThread "B" [{ role := "assistant", content := "welcome" }],
         chunkEv "leaked", UIEvent.cb (CbEvent.complete "m1")]).dom := by
  decide

/-- C4, amended: switching the active thread while a generation is in
flight does not cancel it, and the switch takes effect; but the rendering
guard is accidental — it holds only when the in-progress message element
already exists and is destroyed by the switch.  When at least one chunk
arrived before the switch (and the newly loaded thread has a non-empty
history), every later stream callback is a no-op: no later chunk is
rendered anywhere and the thread list is NOT refreshed on completion,
because the completion handler fails on the removed element before
`loadPaperThreads()`. -/
theorem sendMessage_switch_midstream_amended (s : UIState) (c : String) (cs : List String)
    (tid : String) (hist : List HistMsg) (rest : List UIEvent)
    (hmsg : jsTrim s.chatInput ≠ "") (hstream : s.isStreaming = false)
    (hthread : s.currentThreadId ≠ none)
    (hdom : ∀ el ∈ s.dom, el.eid < s.nextId)
    (hhist : hist ≠ [])
    (hrest : ∀ ev ∈ rest, isCb ev = true) :
    sendMessage s (((c :: cs).map chunkEv ++ [UIEvent.switchThread tid hist]) ++ rest) =
      { (((c :: cs).map chunkEv ++ [UIEvent.switchThread tid hist]).foldl stepUI
          (sendBegin s)).1 with
        isStreaming := false, sendDisabled := false } ∧
    (sendMessage s (((c :: cs).map chunkEv ++ [UIEvent.switchThread tid hist]) ++
        rest)).currentThreadId = some tid ∧
    (sendMessage s (((c :: cs).map chunkEv ++ [UIEvent.switchThread tid hist]) ++
        rest)).refreshCount = s.refreshCount := by
  have hpre : ((c :: cs).map chunkEv ++ [UIEvent.switchThread tid hist]).foldl stepUI
      (sendBegin s) =
      (loadThread
        { s with
            chatInput := "", sendDisabled := true, isStreaming := true,
            dom := s.dom ++
              [{ eid := s.nextId, role := "user",
                 text := formatMessageContent (jsTrim s.chatInput), streaming := false,
                 kind := ElemKind.message },
               { eid := s.nextId + 2, role := "assistant",
                 text := joinAll ((c :: cs).map escapeHtml), streaming := true,
                 kind := ElemKind.message }],
            nextId := s.nextId + 3 } tid hist,
       { firstChunk := false, responseId := some (s.nextId + 2),
         typingId := s.nextId + 1 }) := by
    rw [List.foldl_append, send_chunks_state s c cs hdom, List.foldl_cons, List.foldl_nil]
    rfl
  have hdommem : ∀ x ∈ (loadThread
      { s with
          chatInput := "", sendDisabled := true, isStreaming := true,
          dom := s.dom ++
            [{ eid := s.nextId, role := "user",
               text := formatMessageContent (jsTrim s.chatInput), streaming := false,
               kind := ElemKind.message },
             { eid := s.nextId + 2, role := "assistant",
               text := joinAll ((c :: cs).map escapeHtml), streaming := true,
               kind := ElemKind.message }],
          nextId := s.nextId + 3 } tid hist).dom,
      x.eid ≠ s.nextId + 2 ∧ x.eid ≠ s.nextId + 1 := by
    intro x hx
    rcases loadThread_dom_mem _ tid hist hhist x hx with ⟨hmem, hkind⟩ | h | h
    · have hmem' : x ∈ s.dom ++
          [({ eid := s.nextId, role := "user",
              text := formatMessageContent (jsTrim s.chatInput), streaming := false,
              kind := ElemKind.message } : Elem),
           ({ eid := s.nextId + 2, role := "assistant",
              text := joinAll ((c :: cs).map escapeHtml), streaming := true,
              kind := ElemKind.message } : Elem)] := hmem
      rcases List.mem_append.mp hmem' with h1 | h1
      · have := hdom x h1
        omega
      · simp only [List.mem_cons, List.not_mem_nil, or_false] at h1
        rcases h1 with h1 | h1
        · rw [h1] at hkind
          simp at hkind
        · rw [h1] at hkind
          simp at hkind
    · have h2 : x.eid = s.nextId + 3 := h
      omega
    · have h2 : s.nextId + 4 ≤ x.eid := h
      omega
  have hfind : ((loadThread
      { s with
          chatInput := "", sendDisabled := true, isStreaming := true,
          dom := s.dom ++
            [{ eid := s.nextId, role := "user",
               text := formatMessageContent (jsTrim s.chatInput), streaming := false,
               kind := ElemKind.message },
             { eid := s.nextId + 2, role := "assistant",
               text := joinAll ((c :: cs).map escapeHtml), streaming := true,
               kind := ElemKind.message }],
          nextId := s.nextId + 3 } tid hist).dom.find?
        fun el => el.eid == s.nextId + 2) = none := by
    apply List.find?_eq_none.mpr
    intro x hx
    simp [(hdommem x hx).1]
  have hnoop := foldUI_cb_noop rest _
    { firstChunk := false, responseId := some (s.nextId + 2), typingId := s.nextId + 1 }
    (s.nextId + 2) rfl rfl hfind (fun x hx => (hdommem x hx).2) hrest
  have hmain : sendMessage s (((c :: cs).map chunkEv ++ [UIEvent.switchThread tid hist]) ++
      rest) =
      { (((c :: cs).map chunkEv ++ [UIEvent.switchThread tid hist]).foldl stepUI
          (sendBegin s)).1 with
        isStreaming := false, sendDisabled := false } := by
    rw [sendMessage_run s _ hmsg hstream hthread, List.foldl_append, hpre, hnoop]
  refine ⟨hmain, ?_, ?_⟩
  · rw [hmain, hpre]
    exact (loadThread_proj _ tid hist).1
  · rw [hmain, hpre]
    exact (loadThread_proj _ tid hist).2

theorem sendMessage_switch_midstream_amended_witness :
    (sendMessage
        { currentThreadId := some "A", messages := [], dom := [], nextId := 0,
          isStreaming := false, sendDisabled := false, chatInput := "hello",
          status := "", refreshCount := 0 }
        (([ "pre" ].map chunkEv ++
          [UIEvent.switchThread "B" [{ role := "assistant", content := "welcome" }]]) ++
          [chunkEv "post", UIEvent.cb (CbEvent.complete "m1")])).currentThreadId
      = some "B" ∧
    (sendMessage
        { currentThreadId := some "A", messages := [], dom := [], nextId := 0,
          isStreaming := false, sendDisabled := false, chatInput := "hello",
          status := "", refreshCount := 0 }
        (([ "pre" ].map chunkEv ++
          [UIEvent.switchThread "B" [{ role := "assistant", content := "welcome" }]]) ++
          [chunkEv "post", UIEvent.cb (CbEvent.complete "m1")])).refreshCount = 0 := by
  have h := sendMessage_switch_midstream_amended
    { currentThreadId := some "A", messages := [], dom := [], nextId := 0,
      isStreaming := false, sendDisabled := false, chatInput := "hello",
      status := "", refreshCount := 0 }
    "pre" [] "B" [{ role := "assistant", content := "welcome" }]
    [chunkEv "post", UIEvent.cb (CbEvent.complete "m1")]
    (by decide) rfl (by decide) (by intro el hel; cases hel) (by decide) (by decide)
  exact ⟨h.2.1, h.2.2⟩
